import Mathlib

/-!
# Verification of the point-validation library (`src/lib.rs`)

The library exposes two validators for untrusted compressed curve points:

* `mult_by_cofactor_and_validate : &CompressedEdwardsY -> Option<ExtendedPoint>`
  decompresses an Edwards Y-encoding, multiplies the decompressed point by
  the curve constant `constants::l`, and branches on whether the product is
  the group identity;
* `decaf_decompress : &CompressedDecaf -> Option<DecafPoint>` rejects the
  canonical identity encoding by byte comparison and otherwise defers to
  Decaf decompression, which itself enforces prime-order membership.

The underlying curve library (curve25519-dalek) is an external collaborator;
its group structure is embedded here at the algebraic level.  The ed25519
Edwards curve group is cyclic of order `8 * l` where
`l = 2^252 + 27742317777372353535851937790883648493` is prime and `8` is the
cofactor (the group is `Z/8 x Z/l`, and `gcd(8, l) = 1` makes it cyclic), so
`ExtendedPoint` is embedded as `ZMod (8 * l)`.  The Decaf group is the
prime-order group of order `l`, embedded as `ZMod l`.
-/

/-- Modelled from the spec: `constants::l` of the external curve library, the
prime order of the basepoint subgroup of the ed25519 curve,
`l = 2^252 + 27742317777372353535851937790883648493`. -/
def constants.l : ℕ := 7237005577332262213973186563042994240857116359379907606001950938285454250989

/-- Modelled from the spec: the curve's cofactor, the small fixed integer 8
for the curve25519 family. -/
def constants.cofactor : ℕ := 8

/-- The order of the full Edwards curve group, `cofactor * l`. -/
def curveOrder : ℕ := constants.cofactor * constants.l

/-- Modelled from the spec: the in-memory ("extended") representation of a
point of the Edwards curve.  The embedding works at the level of the curve
group, which for ed25519 is cyclic of order `8 * l`; every value of this type
is a point on the curve, and the low-order (torsion) points are exactly the
multiples of `l`. -/
abbrev ExtendedPoint : Type := ZMod curveOrder

instance : NeZero curveOrder := ⟨by decide⟩

instance : NeZero constants.l := ⟨by decide⟩

/-- Modelled from the spec: the identity element of the curve group
(`ExtendedPoint::identity()`, the point X:Y:Z:T = 0:1:1:0). -/
def ExtendedPoint.identity : ExtendedPoint := 0

/-- Modelled from the spec: the `is_identity` predicate of the external curve
library, comparing a point to the identity element. -/
def ExtendedPoint.is_identity (p : ExtendedPoint) : Bool := decide (p = ExtendedPoint.identity)

/-- Modelled from the spec: scalar multiplication `Point x Scalar -> Point`
of the external curve library (`&p * &s` in the source). -/
def scalarMul (a : ℕ) (p : ExtendedPoint) : ExtendedPoint := (a : ZMod curveOrder) * p

/-- Modelled from the spec: the fixed basepoint `constants::ED25519_BASEPOINT`,
a generator of the prime-order subgroup.  In the cyclic embedding the
prime-order subgroup of `Z/(8*l)` is generated by the class of `8`. -/
def constants.ED25519_BASEPOINT : ExtendedPoint := ((constants.cofactor : ℕ) : ZMod curveOrder)

/-- Modelled from the spec: a compressed Edwards point, an untrusted
byte-level encoding (Y-coordinate plus the sign bit of X).  Encodings are
embedded as naturals; exactly the encodings below `curveOrder` decode to a
point, so invalid encodings (e.g. all bits set) exist in the model. -/
abbrev CompressedEdwardsY : Type := ℕ

/-- Modelled from the spec: `decompress` of the external curve library,
performing on-curve validation and returning `none` on an invalid encoding. -/
def CompressedEdwardsY.decompress (key : CompressedEdwardsY) : Option ExtendedPoint :=
  if key < curveOrder then some ((key : ℕ) : ZMod curveOrder) else none

/-- Modelled from the spec: `compress_edwards`, the byte-level encoding of a
point; decompression is its left inverse. -/
def ExtendedPoint.compress_edwards (p : ExtendedPoint) : CompressedEdwardsY := ZMod.val p

/-- Rust's `Option::unwrap`, with the panic made explicit as `Except.error`. -/
def unwrapPanics {α : Type} : Option α → Except Unit α
  | some a => Except.ok a
  | none => Except.error ()

/-- The Edwards-path validator of `src/lib.rs` (lines 27-53): decompress the
key; on failure return `None`; otherwise multiply the decompressed point by
`constants::l` and return `Some` of the product exactly when the product is
the identity.  The `match p.is_some() / p.unwrap()` pattern of the source is
written as a direct match on the option (the spec notes this is functionally
equivalent); `mult_by_cofactor_and_validateE` below keeps the source shape
with the panic possibility of `unwrap` made explicit. -/
def mult_by_cofactor_and_validate (key : CompressedEdwardsY) : Option ExtendedPoint :=
  match CompressedEdwardsY.decompress key with
  | none => none
  | some p =>
    let q : ExtendedPoint := scalarMul constants.l p
    match ExtendedPoint.is_identity q with
    | true => some q
    | false => none

/-- The Edwards-path validator in the exact shape of the source: branch on
`p.is_some()`, then `unwrap` inside the `true` branch, with the panic of
`unwrap` surfaced as `Except.error`. -/
def mult_by_cofactor_and_validateE (key : CompressedEdwardsY) : Except Unit (Option ExtendedPoint) :=
  let p : Option ExtendedPoint := CompressedEdwardsY.decompress key
  match Option.isSome p with
  | false => Except.ok none
  | true =>
    match unwrapPanics p with
    | Except.error e => Except.error e
    | Except.ok pv =>
      let q : ExtendedPoint := scalarMul constants.l pv
      match ExtendedPoint.is_identity q with
      | true => Except.ok (some q)
      | false => Except.ok none

/-- Modelled from the spec: a point of the prime-order Decaf group, which has
order `l`. -/
abbrev DecafPoint : Type := ZMod constants.l

/-- Modelled from the spec: the compressed Decaf encoding, an untrusted
byte string; equality on this type is the constant-time byte comparison.
Encodings are embedded as naturals; exactly the encodings below `l` decode. -/
abbrev CompressedDecaf : Type := ℕ

/-- Modelled from the spec: `CompressedDecaf::identity()`, the canonical
encoding of the identity element (the all-zero byte string). -/
def CompressedDecaf.identity : CompressedDecaf := 0

/-- Modelled from the spec: `compress` for Decaf points; the canonical
encoding, sending the identity to `CompressedDecaf.identity`. -/
def DecafPoint.compress (p : DecafPoint) : CompressedDecaf := ZMod.val p

/-- Modelled from the spec: Decaf decompression of the external curve
library, which validates both on-curve and prime-order-subgroup membership
as part of decoding and fails on invalid encodings. -/
def CompressedDecaf.decompress (key : CompressedDecaf) : Option DecafPoint :=
  if key < constants.l then some ((key : ℕ) : ZMod constants.l) else none

/-- The Decaf-path validator of `src/lib.rs` (lines 57-71), parametrised by
the decompression routine it calls, so that the result at the identity
encoding is provably independent of decompression: first the constant-time
comparison of the key with the canonical identity encoding (rejecting the
identity), then decompression, whose failure is mapped to `none`. -/
def decaf_decompress_gen (dec : CompressedDecaf → Option DecafPoint)
    (key : CompressedDecaf) : Option DecafPoint :=
  match key == CompressedDecaf.identity with
  | true => none
  | false =>
    let p : Option DecafPoint := dec key
    match Option.isSome p with
    | true => p
    | false => none

/-- The Decaf-path validator of `src/lib.rs`: `decaf_decompress_gen` applied
to the library's Decaf decompression. -/
def decaf_decompress (key : CompressedDecaf) : Option DecafPoint :=
  decaf_decompress_gen CompressedDecaf.decompress key

/-- The Decaf-path validator in the shape of the source, in the `Except`
form used to state absence of panics (the source contains no panicking
operation on this path). -/
def decaf_decompressE (key : CompressedDecaf) : Except Unit (Option DecafPoint) :=
  match key == CompressedDecaf.identity with
  | true => Except.ok none
  | false =>
    let p : Option DecafPoint := CompressedDecaf.decompress key
    match Option.isSome p with
    | true => Except.ok p
    | false => Except.ok none

/-- Membership in the prime-order subgroup of the Edwards curve: the point is
annihilated by the subgroup order `l`. -/
def inPrimeOrderSubgroup (p : ExtendedPoint) : Prop :=
  scalarMul constants.l p = ExtendedPoint.identity

/-- Modelled from the spec: the on-curve predicate.  The embedding represents
points by the elements of the curve group itself, so every value of
`ExtendedPoint` lies on the curve by typing. -/
def onCurve (_p : ExtendedPoint) : Prop := True

/-- Scalar multiplication in the Decaf group. -/
def decafScalarMul (a : ℕ) (p : DecafPoint) : DecafPoint := (a : ZMod constants.l) * p

/-- Membership in the prime-order group on the Decaf side: the point is
annihilated by `l`.  The Decaf group has order `l`, so this holds of every
`DecafPoint`. -/
def decafInPrimeOrderGroup (p : DecafPoint) : Prop :=
  decafScalarMul constants.l p = 0

/-- Follows the spec's words, for comparison with the source function: the
same validator but with the scalar of step 2 being the curve's cofactor
(the small fixed integer 8), as the spec describes. -/
def mult_by_cofactor_and_validate_specCofactor (key : CompressedEdwardsY) : Option ExtendedPoint :=
  match CompressedEdwardsY.decompress key with
  | none => none
  | some p =>
    let q : ExtendedPoint := scalarMul constants.cofactor p
    match ExtendedPoint.is_identity q with
    | true => some q
    | false => none

lemma decompress_compress_edwards (p : ExtendedPoint) :
    CompressedEdwardsY.decompress (ExtendedPoint.compress_edwards p) = some p := by
  unfold CompressedEdwardsY.decompress ExtendedPoint.compress_edwards
  rw [if_pos (ZMod.val_lt p), ZMod.natCast_rightInverse p]

lemma decaf_decompress_compress (p : DecafPoint) :
    CompressedDecaf.decompress (DecafPoint.compress p) = some p := by
  unfold CompressedDecaf.decompress DecafPoint.compress
  rw [if_pos (ZMod.val_lt p), ZMod.natCast_rightInverse p]

lemma l_mul_cofactor_cast_zero :
    ((constants.l : ℕ) : ZMod curveOrder) * ((constants.cofactor : ℕ) : ZMod curveOrder) = 0 := by
  rw [← Nat.cast_mul, mul_comm constants.l constants.cofactor]
  exact ZMod.natCast_self curveOrder

lemma l_mul_scalar_basepoint (a : ℕ) :
    scalarMul constants.l (scalarMul a constants.ED25519_BASEPOINT) = ExtendedPoint.identity := by
  unfold scalarMul constants.ED25519_BASEPOINT ExtendedPoint.identity
  calc ((constants.l : ℕ) : ZMod curveOrder) *
        ((a : ZMod curveOrder) * ((constants.cofactor : ℕ) : ZMod curveOrder))
      = (a : ZMod curveOrder) *
        (((constants.l : ℕ) : ZMod curveOrder) * ((constants.cofactor : ℕ) : ZMod curveOrder)) := by
        ring
    _ = 0 := by rw [l_mul_cofactor_cast_zero, mul_zero]

instance (p : ExtendedPoint) : Decidable (inPrimeOrderSubgroup p) :=
  decidable_of_iff (scalarMul constants.l p = ExtendedPoint.identity) Iff.rfl

instance (p : ExtendedPoint) : Decidable (onCurve p) := Decidable.isTrue trivial

instance (p : DecafPoint) : Decidable (decafInPrimeOrderGroup p) :=
  decidable_of_iff (decafScalarMul constants.l p = 0) Iff.rfl

lemma validate_some_eq_identity (key : CompressedEdwardsY) (q : ExtendedPoint)
    (h : mult_by_cofactor_and_validate key = some q) : q = ExtendedPoint.identity := by
  unfold mult_by_cofactor_and_validate at h
  cases hd : CompressedEdwardsY.decompress key with
  | none => rw [hd] at h; cases h
  | some p =>
    rw [hd] at h
    dsimp only at h
    cases hqi : ExtendedPoint.is_identity (scalarMul constants.l p) with
    | false => rw [hqi] at h; cases h
    | true =>
      rw [hqi] at h
      unfold ExtendedPoint.is_identity at hqi
      have hq := of_decide_eq_true hqi
      have hqe : scalarMul constants.l p = q := Option.some.inj h
      rw [← hqe]
      exact hq

/-- Claim C1: the spec states that `mult_by_cofactor_and_validate` returns
`None` when the scalar-multiplied point equals the identity and
`Some` of the original decompressed point when it does not.  The code does
the opposite: at the encoding `8` of the basepoint, decompression succeeds,
the `l`-multiple is the identity, yet the function does not return `None`
(it returns `Some` of the multiplied point, which is not the decompressed
point). -/
theorem cofactor_validate_identity_polarity_cex :
    CompressedEdwardsY.decompress 8 = some constants.ED25519_BASEPOINT ∧
    scalarMul constants.l constants.ED25519_BASEPOINT = ExtendedPoint.identity ∧
    mult_by_cofactor_and_validate 8 ≠ none ∧
    mult_by_cofactor_and_validate 8 ≠ some constants.ED25519_BASEPOINT := by
  decide

/-- Claim C1 (amended): for every successfully decompressed input,
`mult_by_cofactor_and_validate` returns `Some` of the `l`-multiplied point
exactly when that multiple is the identity, and `None` when it is not —
the reverse polarity of the spec's sentence, and the returned point is the
multiplied point rather than the decompressed one. -/
theorem cofactor_validate_some_iff_l_multiple_identity (key : CompressedEdwardsY)
    (p : ExtendedPoint) (h : CompressedEdwardsY.decompress key = some p) :
    (scalarMul constants.l p = ExtendedPoint.identity →
      mult_by_cofactor_and_validate key = some (scalarMul constants.l p)) ∧
    (scalarMul constants.l p ≠ ExtendedPoint.identity →
      mult_by_cofactor_and_validate key = none) := by
  unfold mult_by_cofactor_and_validate
  rw [h]
  dsimp only
  constructor
  · intro hq
    rw [show ExtendedPoint.is_identity (scalarMul constants.l p) = true from
      decide_eq_true hq]
  · intro hq
    rw [show ExtendedPoint.is_identity (scalarMul constants.l p) = false from
      decide_eq_false hq]

/-- Witness for C1 (amended) at the basepoint encoding `8`. -/
theorem cofactor_validate_some_iff_l_multiple_identity_witness :
    mult_by_cofactor_and_validate 8 =
      some (scalarMul constants.l constants.ED25519_BASEPOINT) :=
  (cofactor_validate_some_iff_l_multiple_identity 8 constants.ED25519_BASEPOINT
    (by decide)).1 (by decide)

/-- Claim C2: the spec states that validating the compression of `a * B`
returns `Some` of `a * B` itself.  At `a = 1` the function does return
`Some`, but the contained point is the identity, not `1 * B`. -/
theorem cofactor_validate_roundtrip_cex :
    mult_by_cofactor_and_validate
        (ExtendedPoint.compress_edwards (scalarMul 1 constants.ED25519_BASEPOINT)) =
      some ExtendedPoint.identity ∧
    ExtendedPoint.identity ≠ scalarMul 1 constants.ED25519_BASEPOINT := by
  decide

/-- Claim C2 (amended): for every scalar `a`, validating the compression of
`a * B` returns `Some`, but the point inside is always the identity element
(the `l`-multiple of `a * B`), not `a * B` itself in general. -/
theorem cofactor_validate_scalar_basepoint_some_identity (a : ℕ) :
    mult_by_cofactor_and_validate
        (ExtendedPoint.compress_edwards (scalarMul a constants.ED25519_BASEPOINT)) =
      some ExtendedPoint.identity := by
  unfold mult_by_cofactor_and_validate
  rw [decompress_compress_edwards]
  dsimp only
  rw [l_mul_scalar_basepoint a,
    show ExtendedPoint.is_identity ExtendedPoint.identity = true from decide_eq_true rfl]

/-- Claim C3: whenever `mult_by_cofactor_and_validate` returns `Some q`, the
point `q` is the identity element: the only `Some` branch returns the
`l`-multiplied point under the hypothesis that it is the identity. -/
theorem cofactor_validate_some_implies_identity (key : CompressedEdwardsY)
    (q : ExtendedPoint) (h : mult_by_cofactor_and_validate key = some q) :
    q = ExtendedPoint.identity :=
  validate_some_eq_identity key q h

/-- Witness for C3 at the basepoint encoding `8`. -/
theorem cofactor_validate_some_implies_identity_witness :
    scalarMul constants.l constants.ED25519_BASEPOINT = ExtendedPoint.identity :=
  cofactor_validate_some_implies_identity 8
    (scalarMul constants.l constants.ED25519_BASEPOINT) (by decide)

/-- Claim C4: the spec states that the scalar used by
`mult_by_cofactor_and_validate` is the curve's cofactor (8 for curve25519).
The source multiplies by `constants::l`, the large prime order of the
basepoint subgroup, which is not the cofactor: at the basepoint encoding
`8` the function disagrees with the cofactor-scalar version of itself. -/
theorem cofactor_validate_scalar_cex :
    mult_by_cofactor_and_validate 8 ≠ mult_by_cofactor_and_validate_specCofactor 8 ∧
    constants.l ≠ constants.cofactor := by
  decide

/-- Claim C4 (amended): the scalar by which the successfully decompressed
point is multiplied is `constants::l`, the prime order of the basepoint
subgroup (about `2^252`), not the cofactor 8: on every successfully
decompressed input the function branches on the `l`-multiple of the point. -/
theorem cofactor_validate_uses_scalar_l (key : CompressedEdwardsY) (p : ExtendedPoint)
    (h : CompressedEdwardsY.decompress key = some p) :
    mult_by_cofactor_and_validate key =
      (match ExtendedPoint.is_identity (scalarMul constants.l p) with
       | true => some (scalarMul constants.l p)
       | false => none) ∧
    constants.l = 2 ^ 252 + 27742317777372353535851937790883648493 ∧
    constants.l ≠ constants.cofactor := by
  refine ⟨?_, by norm_num [constants.l], by decide⟩
  unfold mult_by_cofactor_and_validate
  rw [h]

/-- Witness for C4 (amended) at the basepoint encoding `8`. -/
theorem cofactor_validate_uses_scalar_l_witness :
    mult_by_cofactor_and_validate 8 =
      (match ExtendedPoint.is_identity (scalarMul constants.l constants.ED25519_BASEPOINT) with
       | true => some (scalarMul constants.l constants.ED25519_BASEPOINT)
       | false => none) :=
  (cofactor_validate_uses_scalar_l 8 constants.ED25519_BASEPOINT (by decide)).1

/-- Claim C5: every point returned inside `Some` by either validator is on
the curve and a member of the prime-order subgroup.  On the Edwards path the
returned point is always the identity, which lies in the subgroup; on the
Decaf path the returned point inhabits the prime-order group by
construction of Decaf decompression. -/
theorem validators_return_subgroup_members :
    (∀ (key : CompressedEdwardsY) (q : ExtendedPoint),
        mult_by_cofactor_and_validate key = some q →
          onCurve q ∧ inPrimeOrderSubgroup q) ∧
    (∀ (key : CompressedDecaf) (q : DecafPoint),
        decaf_decompress key = some q → decafInPrimeOrderGroup q) := by
  constructor
  · intro key q h
    refine ⟨trivial, ?_⟩
    rw [validate_some_eq_identity key q h]
    unfold inPrimeOrderSubgroup scalarMul ExtendedPoint.identity
    rw [mul_zero]
  · intro key q _h
    unfold decafInPrimeOrderGroup decafScalarMul
    rw [ZMod.natCast_self, zero_mul]

/-- Witness for C5: the Edwards validator accepts the basepoint encoding `8`
(returning the identity) and the Decaf validator accepts the encoding `1`. -/
theorem validators_return_subgroup_members_witness :
    (onCurve ExtendedPoint.identity ∧ inPrimeOrderSubgroup ExtendedPoint.identity) ∧
    decafInPrimeOrderGroup (1 : DecafPoint) :=
  ⟨validators_return_subgroup_members.1 8 ExtendedPoint.identity (by decide),
   validators_return_subgroup_members.2 1 1 (by decide)⟩

/-- Claim C6: `decaf_decompress` applied to the canonical compressed encoding
of the identity element returns `None`, and the identity comparison comes
before any decompression attempt: the result at the identity encoding is
`None` for every decompression routine the validator could call. -/
theorem decaf_rejects_identity_encoding :
    (∀ dec : CompressedDecaf → Option DecafPoint,
        decaf_decompress_gen dec CompressedDecaf.identity = none) ∧
    decaf_decompress CompressedDecaf.identity = none ∧
    DecafPoint.compress 0 = CompressedDecaf.identity := by
  exact ⟨fun dec => rfl, rfl, rfl⟩

/-- Claim C7: for every Decaf point whose compression is not the identity
encoding, compressing and then validating returns `Some` of the original
point. -/
theorem decaf_roundtrip (p : DecafPoint)
    (h : DecafPoint.compress p ≠ CompressedDecaf.identity) :
    decaf_decompress (DecafPoint.compress p) = some p := by
  unfold decaf_decompress decaf_decompress_gen
  rw [show (DecafPoint.compress p == CompressedDecaf.identity) = false from
    beq_false_of_ne h]
  dsimp only
  rw [decaf_decompress_compress]
  rfl

/-- Witness for C7 at the Decaf point `1`. -/
theorem decaf_roundtrip_witness :
    decaf_decompress (DecafPoint.compress (1 : DecafPoint)) = some (1 : DecafPoint) :=
  decaf_roundtrip 1 (by decide)

/-- Claim C8: every compressed Edwards input whose decompression fails makes
`mult_by_cofactor_and_validate` return `None`. -/
theorem cofactor_validate_invalid_encoding_none (key : CompressedEdwardsY)
    (h : CompressedEdwardsY.decompress key = none) :
    mult_by_cofactor_and_validate key = none := by
  unfold mult_by_cofactor_and_validate
  rw [h]

/-- Witness for C8 at the out-of-range encoding `curveOrder`. -/
theorem cofactor_validate_invalid_encoding_none_witness :
    mult_by_cofactor_and_validate curveOrder = none :=
  cofactor_validate_invalid_encoding_none curveOrder (by decide)

/-- Claim C9: every compressed Edwards encoding of a low-order point — a
point annihilated by the cofactor but not lying in the prime-order subgroup —
is rejected: `mult_by_cofactor_and_validate` returns `None` on it, because
the `l`-multiple of such a point is not the identity. -/
theorem cofactor_validate_low_order_none (key : CompressedEdwardsY) (p : ExtendedPoint)
    (hdec : CompressedEdwardsY.decompress key = some p)
    (_hlow : scalarMul constants.cofactor p = ExtendedPoint.identity)
    (hns : ¬ inPrimeOrderSubgroup p) :
    mult_by_cofactor_and_validate key = none := by
  unfold mult_by_cofactor_and_validate
  rw [hdec]
  dsimp only
  rw [show ExtendedPoint.is_identity (scalarMul constants.l p) = false from
    decide_eq_false hns]

/-- Witness for C9 at the encoding of the torsion point `l`, a point of
order 8 outside the prime-order subgroup. -/
theorem cofactor_validate_low_order_none_witness :
    mult_by_cofactor_and_validate constants.l = none :=
  cofactor_validate_low_order_none constants.l
    ((constants.l : ℕ) : ZMod curveOrder) (by decide) (by decide) (by decide)

/-- Claim C10: neither validator panics on any input: the source-shaped
variants with Rust's `unwrap` panic made explicit always return `Except.ok`
of the corresponding validator's normal `Option` result — in particular the
`unwrap` in `mult_by_cofactor_and_validate` is unreachable, since it sits in
the branch where `is_some` is known to be `true`. -/
theorem validators_never_panic :
    (∀ key : CompressedEdwardsY,
        mult_by_cofactor_and_validateE key =
          Except.ok (mult_by_cofactor_and_validate key)) ∧
    (∀ key : CompressedDecaf,
        decaf_decompressE key = Except.ok (decaf_decompress key)) := by
  constructor
  · intro key
    unfold mult_by_cofactor_and_validateE mult_by_cofactor_and_validate
    cases CompressedEdwardsY.decompress key with
    | none => rfl
    | some p =>
      dsimp only [Option.isSome, unwrapPanics]
      cases ExtendedPoint.is_identity (scalarMul constants.l p) <;> rfl
  · intro key
    unfold decaf_decompressE decaf_decompress decaf_decompress_gen
    cases key == CompressedDecaf.identity with
    | true => rfl
    | false =>
      dsimp only
      cases Option.isSome (CompressedDecaf.decompress key) <;> rfl
